import Mathlib

/-!
# Network monitor addon (`src/main/network_monitor.cc`)

A shallow embedding of the `Start` entry point of the addon, of the detached
`monitorThread` and of the Windows monitoring loop `StartMonitoring_Windows`.

* The process is a record holding the global `tsfn`, the thread-safe functions
  that were overwritten in it, the number of monitor threads spawned and a
  chronological trace of the effects performed.
* The operating system is an oracle `Env` answering the calls the loop makes:
  `NotifyAddrChange`, `WSAGetLastError`, `WaitForSingleObject`.
* The loop is run for a number of iterations (`fuel`); a thread that is inside
  `WaitForSingleObject(..., INFINITE)` for ever has status `blocked`.
-/

namespace NetworkMonitor

/-! ## JavaScript values and the event bridge -/

/-- JavaScript values as far as `Start` inspects them. -/
inductive JsValue where
  | undefined
  | null
  | boolean (b : Bool)
  | number (n : Int)
  | string (s : String)
  | object (id : Nat)
  | function (id : Nat)
  deriving DecidableEq

/-- The test `Napi::Value::IsFunction`. -/
def JsValue.IsFunction : JsValue → Bool
  | .function _ => true
  | _ => false

/-- A pending JavaScript exception. -/
structure JsError where
  kind : String
  message : String
  deriving DecidableEq

/-- Where a queued call comes from: line 103 (`Start`) or line 42 (the loop,
in the iteration whose wait was signalled). The code does not store this; it
is kept to tell the calls apart. -/
inductive Origin where
  | startup
  | change (iteration : Nat)
  deriving DecidableEq

/-- A call queued with `tsfn.BlockingCall`: the lambda
`[](Napi::Env, Napi::Function jsCallback) { jsCallback.Call({}); }`, given by
the argument list it passes to `jsCallback.Call`. -/
structure QueuedCall where
  args : List JsValue
  origin : Origin
  deriving DecidableEq

/-- A `Napi::ThreadSafeFunction` made by `ThreadSafeFunction::New`: the
JavaScript function it calls and its queue (maximum size 0, unlimited). -/
structure Bridge where
  callback : JsValue
  queue : List QueuedCall
  deriving DecidableEq

/-- One call of the JavaScript callback. -/
structure Invocation where
  callee : JsValue
  args : List JsValue
  origin : Origin
  deriving DecidableEq

/-- The calls of the JavaScript callback a bridge gives rise to. N-API runs
every queued call once, in queue order, on the JavaScript thread; the queued
lambda calls `jsCallback.Call` with its argument list. -/
def Bridge.deliveries (b : Bridge) : List Invocation :=
  b.queue.map fun q => { callee := b.callback, args := q.args, origin := q.origin }

/-! ## Effects and process state -/

/-- The observable actions of the addon, in the order the code performs them. -/
inductive Effect where
  | tsfnNew (callback : JsValue)
  | blockingCall (origin : Origin)
  | threadSpawn
  | wsaCreateEvent
  | notifyAddrChange (call : Nat) (ret : Nat)
  | waitForSingleObject (iteration : Nat) (result : Option Nat)
  | wsaCloseEvent
  deriving DecidableEq

/-- The state of the process. -/
structure Process where
  /-- The global `Napi::ThreadSafeFunction tsfn` (line 16); `none` is the
  default-constructed, empty value. -/
  tsfn : Option Bridge
  /-- Thread-safe functions that were overwritten in `tsfn`, oldest first. The
  code never releases one. -/
  orphaned : List Bridge
  /-- The number of monitor threads spawned so far (all detached). -/
  threads : Nat
  /-- The effects performed so far, oldest first. -/
  trace : List Effect
  deriving DecidableEq

/-- The process before the first call of `Start`. -/
def Process.initial : Process :=
  { tsfn := none, orphaned := [], threads := 0, trace := [] }

/-- The number of calls queued on all bridges of the process. -/
def Process.totalQueued (s : Process) : Nat :=
  ((s.orphaned ++ s.tsfn.toList).map fun b => b.queue.length).sum

/-- The assignment `tsfn = Napi::ThreadSafeFunction::New(env, callback, ...)` (lines 90-98):
a new bridge with an empty queue replaces the value of the global. -/
def ThreadSafeFunction_New (s : Process) (callback : JsValue) : Process :=
  { s with
    tsfn := some { callback := callback, queue := [] }
    orphaned := s.orphaned ++ s.tsfn.toList
    trace := s.trace ++ [Effect.tsfnNew callback] }

/-- The call `tsfn.BlockingCall([](Napi::Env, Napi::Function jsCallback) { jsCallback.Call({}); })`
(lines 42-44 and 103-105): the call is appended to the queue of the bridge in
the global `tsfn`. On an empty `tsfn` nothing is queued. -/
def BlockingCall (s : Process) (origin : Origin) : Process :=
  match s.tsfn with
  | some b =>
    { s with
      tsfn := some { b with queue := b.queue ++ [{ args := [], origin := origin }] }
      trace := s.trace ++ [Effect.blockingCall origin] }
  | none => s

/-- The statements `std::thread t(monitorThread); t.detach();` (lines 110-111). -/
def spawnMonitorThread (s : Process) : Process :=
  { s with threads := s.threads + 1, trace := s.trace ++ [Effect.threadSpawn] }

/-! ## `Start` -/

/-- What a call of `Start` hands back to JavaScript: the returned value and
the exception thrown, if any. -/
structure StartOutcome where
  value : JsValue
  exception : Option JsError
  deriving DecidableEq

/-- The outcome of lines 85-86. -/
def invalidArgument : StartOutcome :=
  { value := JsValue.null
    exception := some { kind := "TypeError", message := "Function expected as argument" } }

/-- The function `Napi::Value Start(const Napi::CallbackInfo& info)` (lines 82-114). The
argument list is `info`; `info[0]` of an empty list is `undefined`. -/
def Start (s : Process) (info : List JsValue) : Process × StartOutcome :=
  if info.length < 1 || !(info.getD 0 JsValue.undefined).IsFunction then
    (s, invalidArgument)
  else
    let s1 := ThreadSafeFunction_New s (info.getD 0 JsValue.undefined)
    let s2 := BlockingCall s1 Origin.startup
    let s3 := spawnMonitorThread s2
    (s3, { value := JsValue.undefined, exception := none })

/-- A sequence of `Start` calls, one argument list per call. -/
def startAll (s : Process) : List (List JsValue) → Process
  | [] => s
  | info :: calls => startAll (Start s info).1 calls

/-- The argument lists `Start` accepts. -/
def validCall (info : List JsValue) : Bool :=
  !(info.length < 1 || !(info.getD 0 JsValue.undefined).IsFunction)

/-! ## The operating system -/

/-- The constant `NO_ERROR` of the Windows SDK (winerror.h). -/
def NO_ERROR : Nat := 0

/-- The constant `WSA_IO_PENDING` of the Windows SDK, which is `ERROR_IO_PENDING`
(winsock2.h, winerror.h). -/
def WSA_IO_PENDING : Int := 997

/-- The constant `WAIT_OBJECT_0` of the Windows SDK (winbase.h). -/
def WAIT_OBJECT_0 : Nat := 0

/-- The answers of the operating system to the calls of the loop. -/
structure Env where
  /-- The value returned by the `call`-th call of `NotifyAddrChange`
  (call 0 is the one of line 28). -/
  NotifyAddrChange : Nat → Nat
  /-- The value `WSAGetLastError()` returns in the test of line 31 in the given
  loop iteration. The code calls it anew in every pass, and it reads the
  last-error code of the thread, which a call made since the registration (a
  failed wait, say) may have overwritten; hence one value per pass. -/
  WSAGetLastError : Nat → Int
  /-- The value returned by `WaitForSingleObject(overlap.hEvent, INFINITE)` in
  the given loop iteration; `none` when the call never returns. -/
  WaitForSingleObject : Nat → Option Nat

/-! ## The monitoring loop -/

/-- Where a monitor thread is. -/
inductive Status where
  /-- Inside the `while (true)` loop, at its head. -/
  | running
  /-- Inside a `WaitForSingleObject` call that never returns. -/
  | blocked
  /-- The function has returned. -/
  | exited
  deriving DecidableEq

/-- The state of `StartMonitoring_Windows` at the head of the loop. -/
structure LoopState where
  proc : Process
  /-- The local `ret`. -/
  ret : Nat
  /-- The number of `NotifyAddrChange` calls made so far. -/
  notifyCalls : Nat
  /-- The number of loop iterations completed so far. -/
  iteration : Nat
  status : Status
  deriving DecidableEq

/-- The test of line 31: `ret != NO_ERROR && WSAGetLastError() != WSA_IO_PENDING`. -/
def terminalError (env : Env) (st : LoopState) : Bool :=
  st.ret != NO_ERROR && env.WSAGetLastError st.iteration != WSA_IO_PENDING

/-- Appends one effect to the trace. -/
def Process.emit (s : Process) (e : Effect) : Process :=
  { s with trace := s.trace ++ [e] }

/-- Lines 23-28: the event is created and the first registration is made. -/
def loopEntry (env : Env) (s : Process) : LoopState :=
  { proc := (s.emit Effect.wsaCreateEvent).emit
      (Effect.notifyAddrChange 0 (env.NotifyAddrChange 0))
    ret := env.NotifyAddrChange 0
    notifyCalls := 1
    iteration := 0
    status := Status.running }

/-- One pass through the body of `while (true)` (lines 31-49); on `break` the
function goes on to `WSACloseEvent` (line 51) and returns. -/
def loopIteration (env : Env) (st : LoopState) : LoopState :=
  match st.status with
  | Status.running =>
    if terminalError env st then
      { st with proc := st.proc.emit Effect.wsaCloseEvent, status := Status.exited }
    else
      match env.WaitForSingleObject st.iteration with
      | none =>
        { st with
          proc := st.proc.emit (Effect.waitForSingleObject st.iteration none)
          status := Status.blocked }
      | some result =>
        let p1 := st.proc.emit (Effect.waitForSingleObject st.iteration (some result))
        if result = WAIT_OBJECT_0 then
          let p2 := if p1.tsfn.isSome then BlockingCall p1 (Origin.change st.iteration) else p1
          let ret := env.NotifyAddrChange st.notifyCalls
          { proc := p2.emit (Effect.notifyAddrChange st.notifyCalls ret)
            ret := ret
            notifyCalls := st.notifyCalls + 1
            iteration := st.iteration + 1
            status := Status.running }
        else
          { st with proc := p1, iteration := st.iteration + 1 }
  | _ => st

/-- The loop run for at most `fuel` passes. -/
def whileLoop (env : Env) : Nat → LoopState → LoopState
  | 0, st => st
  | fuel + 1, st => whileLoop env fuel (loopIteration env st)

/-- The function `void StartMonitoring_Windows()` (lines 22-52), run for at most `fuel`
passes of its loop. -/
def StartMonitoring_Windows (env : Env) (fuel : Nat) (s : Process) : LoopState :=
  whileLoop env fuel (loopEntry env s)

/-- The platform the addon is compiled for. -/
inductive Platform where
  | win32
  | apple
  | linux
  | other
  deriving DecidableEq

/-- The function `void StartMonitoring_Mac()` (lines 55-59): an empty body. -/
def StartMonitoring_Mac (s : Process) : Process := s

/-- The function `void StartMonitoring_Linux()` (lines 61-65): an empty body. -/
def StartMonitoring_Linux (s : Process) : Process := s

/-- What a monitor thread has done and where it is. -/
structure ThreadRun where
  proc : Process
  status : Status
  deriving DecidableEq

/-- The function `void monitorThread()` (lines 70-79). -/
def monitorThread (p : Platform) (env : Env) (fuel : Nat) (s : Process) : ThreadRun :=
  match p with
  | Platform.win32 =>
    let r := StartMonitoring_Windows env fuel s
    { proc := r.proc, status := r.status }
  | Platform.apple => { proc := StartMonitoring_Mac s, status := Status.exited }
  | Platform.linux => { proc := StartMonitoring_Linux s, status := Status.exited }
  | Platform.other => { proc := s, status := Status.exited }

/-- The effects a run added to the trace of the process it started from. -/
def addedEffects (before after : Process) : List Effect :=
  after.trace.drop before.trace.length

/-! ## Notions used in the statements, and sample operating systems -/

/-- The effects of a pass whose wait is signalled. -/
def signalledRound (env : Env) (hasTsfn : Bool) (i k : Nat) : List Effect :=
  Effect.waitForSingleObject i (some WAIT_OBJECT_0) ::
    ((if hasTsfn then [Effect.blockingCall (Origin.change i)] else []) ++
      [Effect.notifyAddrChange k (env.NotifyAddrChange k)])

/-- The effect lists the loop can produce from iteration `i` with `k`
registration calls made, together with the status the thread ends in. -/
inductive Rounds (env : Env) (hasTsfn : Bool) : Nat → Nat → List Effect → Status → Prop
  | stop (i k : Nat) : Rounds env hasTsfn i k [] Status.running
  | blocked (i k : Nat) :
    Rounds env hasTsfn i k [Effect.waitForSingleObject i none] Status.blocked
  | closed (i k : Nat) : Rounds env hasTsfn i k [Effect.wsaCloseEvent] Status.exited
  | spurious (i k r : Nat) (rest : List Effect) (fin : Status) :
    r ≠ WAIT_OBJECT_0 → Rounds env hasTsfn (i + 1) k rest fin →
    Rounds env hasTsfn i k (Effect.waitForSingleObject i (some r) :: rest) fin
  | signalled (i k : Nat) (rest : List Effect) (fin : Status) :
    Rounds env hasTsfn (i + 1) (k + 1) rest fin →
    Rounds env hasTsfn i k (signalledRound env hasTsfn i k ++ rest) fin

/-- The effect is a wait or the closing of the event. -/
def Effect.isWaitOrClose : Effect → Bool
  | Effect.waitForSingleObject _ _ => true
  | Effect.wsaCloseEvent => true
  | _ => false

/-- The calls the loop queues in iterations `i`, ..., `i + k - 1`. -/
def changeCalls (i k : Nat) : List QueuedCall :=
  (List.range' i k).map fun j => { args := [], origin := Origin.change j }

/-- An operating system that signals two changes and then stays silent; every
registration reports pending. -/
def envTwoSignals : Env :=
  { NotifyAddrChange := fun _ => 997
    WSAGetLastError := fun _ => 997
    WaitForSingleObject := fun j => if j < 2 then some 0 else none }

/-- An operating system whose third registration fails with a terminal error,
and which would go on signalling changes. -/
def envFailsAtTwo : Env :=
  { NotifyAddrChange := fun k => if k < 2 then 997 else 5
    WSAGetLastError := fun j => if j < 2 then 997 else 5
    WaitForSingleObject := fun _ => some 0 }

/-- The bridge a valid call of `Start` leaves in `tsfn`. -/
def freshBridge (info : List JsValue) : Bridge :=
  { callback := info.getD 0 JsValue.undefined
    queue := [{ args := [], origin := Origin.startup }] }

@[simp]
theorem emit_tsfn (s : Process) (e : Effect) : (s.emit e).tsfn = s.tsfn := rfl

@[simp]
theorem emit_orphaned (s : Process) (e : Effect) :
    (s.emit e).orphaned = s.orphaned := rfl

@[simp]
theorem emit_threads (s : Process) (e : Effect) : (s.emit e).threads = s.threads := rfl

@[simp]
theorem emit_trace (s : Process) (e : Effect) : (s.emit e).trace = s.trace ++ [e] := rfl

theorem BlockingCall_of_some (s : Process) (o : Origin) (b : Bridge) (h : s.tsfn = some b) :
    BlockingCall s o =
      { s with
        tsfn := some { b with queue := b.queue ++ [{ args := [], origin := o }] }
        trace := s.trace ++ [Effect.blockingCall o] } := by
  simp [BlockingCall, h]

theorem BlockingCall_of_none (s : Process) (o : Origin) (h : s.tsfn = none) :
    BlockingCall s o = s := by
  simp [BlockingCall, h]

theorem Start_of_invalid (s : Process) (info : List JsValue) (h : validCall info = false) :
    Start s info = (s, invalidArgument) := by
  unfold validCall at h
  unfold Start
  cases hc : (decide (info.length < 1) || !(info.getD 0 JsValue.undefined).IsFunction)
  · rw [hc] at h
    simp at h
  · simp

theorem Start_of_valid (s : Process) (info : List JsValue) (h : validCall info = true) :
    Start s info =
      (spawnMonitorThread (BlockingCall (ThreadSafeFunction_New s
        (info.getD 0 JsValue.undefined)) Origin.startup),
        { value := JsValue.undefined, exception := none }) := by
  unfold validCall at h
  unfold Start
  cases hc : (decide (info.length < 1) || !(info.getD 0 JsValue.undefined).IsFunction)
  · simp
  · rw [hc] at h
    simp at h

theorem validCall_cons (v : JsValue) (rest : List JsValue) :
    validCall (v :: rest) = v.IsFunction := by
  simp [validCall]

theorem validCall_nil : validCall [] = false := by
  simp [validCall]

theorem Start_function (s : Process) (f : JsValue) (rest : List JsValue)
    (hf : f.IsFunction = true) :
    (Start s (f :: rest)).1 =
      { tsfn := some { callback := f, queue := [{ args := [], origin := Origin.startup }] }
        orphaned := s.orphaned ++ s.tsfn.toList
        threads := s.threads + 1
        trace := s.trace ++
          [Effect.tsfnNew f, Effect.blockingCall Origin.startup, Effect.threadSpawn] } := by
  rw [Start_of_valid s (f :: rest) (by rw [validCall_cons]; exact hf)]
  simp [spawnMonitorThread, BlockingCall, ThreadSafeFunction_New]

/-! ## One pass through the loop, case by case -/

theorem loopIteration_of_not_running (env : Env) (st : LoopState)
    (h : st.status ≠ Status.running) : loopIteration env st = st := by
  unfold loopIteration
  cases hs : st.status <;> simp_all

theorem loopIteration_break (env : Env) (st : LoopState) (h : st.status = Status.running)
    (ht : terminalError env st = true) :
    loopIteration env st =
      { st with proc := st.proc.emit Effect.wsaCloseEvent, status := Status.exited } := by
  unfold loopIteration
  simp [h, ht]

theorem loopIteration_blocked (env : Env) (st : LoopState) (h : st.status = Status.running)
    (ht : terminalError env st = false) (hw : env.WaitForSingleObject st.iteration = none) :
    loopIteration env st =
      { st with
        proc := st.proc.emit (Effect.waitForSingleObject st.iteration none)
        status := Status.blocked } := by
  unfold loopIteration
  simp [h, ht, hw]

theorem loopIteration_not_signalled (env : Env) (st : LoopState) (r : Nat)
    (h : st.status = Status.running) (ht : terminalError env st = false)
    (hw : env.WaitForSingleObject st.iteration = some r) (hr : r ≠ WAIT_OBJECT_0) :
    loopIteration env st =
      { st with
        proc := st.proc.emit (Effect.waitForSingleObject st.iteration (some r))
        iteration := st.iteration + 1 } := by
  unfold loopIteration
  simp [h, ht, hw, hr]

theorem loopIteration_signalled (env : Env) (st : LoopState) (b : Bridge)
    (h : st.status = Status.running) (ht : terminalError env st = false)
    (hw : env.WaitForSingleObject st.iteration = some WAIT_OBJECT_0)
    (hb : st.proc.tsfn = some b) :
    loopIteration env st =
      { proc :=
          { st.proc with
            tsfn := some
              { b with queue := b.queue ++ [{ args := [], origin := Origin.change st.iteration }] }
            trace := st.proc.trace ++
              [Effect.waitForSingleObject st.iteration (some WAIT_OBJECT_0),
                Effect.blockingCall (Origin.change st.iteration),
                Effect.notifyAddrChange st.notifyCalls (env.NotifyAddrChange st.notifyCalls)] }
        ret := env.NotifyAddrChange st.notifyCalls
        notifyCalls := st.notifyCalls + 1
        iteration := st.iteration + 1
        status := Status.running } := by
  unfold loopIteration
  simp [h, ht, hw, hb, BlockingCall, Process.emit]

theorem loopIteration_signalled_no_tsfn (env : Env) (st : LoopState)
    (h : st.status = Status.running) (ht : terminalError env st = false)
    (hw : env.WaitForSingleObject st.iteration = some WAIT_OBJECT_0)
    (hb : st.proc.tsfn = none) :
    loopIteration env st =
      { proc :=
          { st.proc with
            trace := st.proc.trace ++
              [Effect.waitForSingleObject st.iteration (some WAIT_OBJECT_0),
                Effect.notifyAddrChange st.notifyCalls (env.NotifyAddrChange st.notifyCalls)] }
        ret := env.NotifyAddrChange st.notifyCalls
        notifyCalls := st.notifyCalls + 1
        iteration := st.iteration + 1
        status := Status.running } := by
  unfold loopIteration
  simp [h, ht, hw, hb, Process.emit]

theorem whileLoop_of_not_running (env : Env) (n : Nat) (st : LoopState)
    (h : st.status ≠ Status.running) : whileLoop env n st = st := by
  induction n with
  | zero => rfl
  | succ n ih => rw [whileLoop, loopIteration_of_not_running env st h, ih]

theorem whileLoop_add (env : Env) (a b : Nat) (st : LoopState) :
    whileLoop env (a + b) st = whileLoop env b (whileLoop env a st) := by
  induction a generalizing st with
  | zero => simp [whileLoop]
  | succ a ih => rw [Nat.succ_add, whileLoop, whileLoop, ih]

/-! ## The shape of the effects of the loop -/

theorem whileLoop_rounds (env : Env) (n : Nat) (st : LoopState)
    (h : st.status = Status.running) :
    ∃ body, (whileLoop env n st).proc.trace = st.proc.trace ++ body ∧
      Rounds env st.proc.tsfn.isSome st.iteration st.notifyCalls body
        (whileLoop env n st).status := by
  induction n generalizing st with
  | zero => exact ⟨[], by simp [whileLoop], by rw [whileLoop, h]; exact Rounds.stop _ _⟩
  | succ n ih =>
    rw [whileLoop]
    cases ht : terminalError env st with
    | true =>
      rw [loopIteration_break env st h ht, whileLoop_of_not_running env n _ (by simp)]
      exact ⟨[Effect.wsaCloseEvent], by simp, Rounds.closed _ _⟩
    | false =>
      cases hw : env.WaitForSingleObject st.iteration with
      | none =>
        rw [loopIteration_blocked env st h ht hw, whileLoop_of_not_running env n _ (by simp)]
        exact ⟨[Effect.waitForSingleObject st.iteration none], by simp, Rounds.blocked _ _⟩
      | some r =>
        by_cases hr : r = WAIT_OBJECT_0
        · subst hr
          cases hb : st.proc.tsfn with
          | none =>
            have hstep := loopIteration_signalled_no_tsfn env st h ht hw hb
            obtain ⟨body, hbody, hrounds⟩ := ih (loopIteration env st) (by rw [hstep])
            have h1 : (loopIteration env st).proc.tsfn.isSome = false := by rw [hstep]; simp [hb]
            have h2 : (loopIteration env st).iteration = st.iteration + 1 := by rw [hstep]
            have h3 : (loopIteration env st).notifyCalls = st.notifyCalls + 1 := by rw [hstep]
            have h4 : (loopIteration env st).proc.trace =
                st.proc.trace ++ signalledRound env false st.iteration st.notifyCalls := by
              rw [hstep]; simp [signalledRound]
            rw [h1, h2, h3] at hrounds
            refine ⟨signalledRound env false st.iteration st.notifyCalls ++ body, ?_, ?_⟩
            · rw [hbody, h4, List.append_assoc]
            · simp only [Option.isSome_none]
              exact Rounds.signalled _ _ _ _ hrounds
          | some b =>
            have hstep := loopIteration_signalled env st b h ht hw hb
            obtain ⟨body, hbody, hrounds⟩ := ih (loopIteration env st) (by rw [hstep])
            have h1 : (loopIteration env st).proc.tsfn.isSome = true := by rw [hstep]; rfl
            have h2 : (loopIteration env st).iteration = st.iteration + 1 := by rw [hstep]
            have h3 : (loopIteration env st).notifyCalls = st.notifyCalls + 1 := by rw [hstep]
            have h4 : (loopIteration env st).proc.trace =
                st.proc.trace ++ signalledRound env true st.iteration st.notifyCalls := by
              rw [hstep]; simp [signalledRound]
            rw [h1, h2, h3] at hrounds
            refine ⟨signalledRound env true st.iteration st.notifyCalls ++ body, ?_, ?_⟩
            · rw [hbody, h4, List.append_assoc]
            · simp only [Option.isSome_some]
              exact Rounds.signalled _ _ _ _ hrounds
        · have hstep := loopIteration_not_signalled env st r h ht hw hr
          obtain ⟨body, hbody, hrounds⟩ := ih (loopIteration env st) (by rw [hstep]; exact h)
          have h1 : (loopIteration env st).proc.tsfn = st.proc.tsfn := by rw [hstep]; rfl
          have h2 : (loopIteration env st).iteration = st.iteration + 1 := by rw [hstep]
          have h3 : (loopIteration env st).notifyCalls = st.notifyCalls := by rw [hstep]
          have h4 : (loopIteration env st).proc.trace =
              st.proc.trace ++ [Effect.waitForSingleObject st.iteration (some r)] := by
            rw [hstep]; rfl
          rw [h1, h2, h3] at hrounds
          refine ⟨Effect.waitForSingleObject st.iteration (some r) :: body, ?_, ?_⟩
          · rw [hbody, h4]
            simp
          · exact Rounds.spurious _ _ _ _ _ hr hrounds

theorem Rounds.head_wait_or_close {env : Env} {f : Bool} {i k : Nat} {body : List Effect}
    {fin : Status} (h : Rounds env f i k body fin) :
    ∀ e, body[0]? = some e → e.isWaitOrClose = true := by
  cases h <;> simp [signalledRound, Effect.isWaitOrClose]

theorem Rounds.after_signalled {env : Env} {i k : Nat} {body : List Effect}
    {fin : Status} (h : Rounds env true i k body fin) :
    ∀ m j, body[m]? = some (Effect.waitForSingleObject j (some WAIT_OBJECT_0)) →
      body[m + 1]? = some (Effect.blockingCall (Origin.change j)) ∧
      (∃ c, body[m + 2]? = some (Effect.notifyAddrChange c (env.NotifyAddrChange c))) ∧
      ∀ e, body[m + 3]? = some e → e.isWaitOrClose = true := by
  induction h with
  | stop i k => simp
  | blocked i k =>
    intro m j hm
    cases m <;> simp at hm
  | closed i k =>
    intro m j hm
    cases m <;> simp at hm
  | spurious i k r rest fin hr hrest ih =>
    intro m j hm
    cases m with
    | zero =>
      simp at hm
      exact absurd hm.2 hr
    | succ m =>
      simp only [List.getElem?_cons_succ] at hm ⊢
      exact ih m j hm
  | signalled i k rest fin hrest ih =>
    intro m j hm
    simp only [signalledRound, if_true, List.cons_append, List.nil_append] at hm ⊢
    rcases m with _ | _ | _ | m
    · simp at hm
      subst hm
      refine ⟨by simp, ⟨k, by simp⟩, ?_⟩
      intro e he
      simp at he
      exact hrest.head_wait_or_close e he
    · simp at hm
    · simp at hm
    · simp only [List.getElem?_cons_succ] at hm ⊢
      exact ih m j hm

theorem Rounds.before_enqueue {env : Env} {f : Bool} {i k : Nat} {body : List Effect}
    {fin : Status} (h : Rounds env f i k body fin) :
    ∀ m o, body[m]? = some (Effect.blockingCall o) →
      ∃ m0 j, m = m0 + 1 ∧ o = Origin.change j ∧
        body[m0]? = some (Effect.waitForSingleObject j (some WAIT_OBJECT_0)) := by
  induction h with
  | stop i k => simp
  | blocked i k =>
    intro m o hm
    cases m <;> simp at hm
  | closed i k =>
    intro m o hm
    cases m <;> simp at hm
  | spurious i k r rest fin hr hrest ih =>
    intro m o hm
    cases m with
    | zero => simp at hm
    | succ m =>
      simp only [List.getElem?_cons_succ] at hm
      obtain ⟨m0, j, h1, h2, h3⟩ := ih m o hm
      exact ⟨m0 + 1, j, by omega, h2, by simpa using h3⟩
  | signalled i k rest fin hrest ih =>
    intro m o hm
    cases f with
    | true =>
      simp only [signalledRound, if_true, List.cons_append, List.nil_append] at hm ⊢
      rcases m with _ | _ | _ | m
      · simp at hm
      · simp at hm
        exact ⟨0, i, rfl, hm.symm, by simp⟩
      · simp at hm
      · simp only [List.getElem?_cons_succ] at hm
        obtain ⟨m0, j, h1, h2, h3⟩ := ih m o hm
        exact ⟨m0 + 3, j, by omega, h2, by simpa using h3⟩
    | false =>
      simp only [signalledRound, Bool.false_eq_true, if_false, List.cons_append,
        List.nil_append] at hm ⊢
      rcases m with _ | _ | m
      · simp at hm
      · simp at hm
      · simp only [List.getElem?_cons_succ] at hm
        obtain ⟨m0, j, h1, h2, h3⟩ := ih m o hm
        exact ⟨m0 + 2, j, by omega, h2, by simpa using h3⟩

theorem Rounds.before_notify {env : Env} {i k : Nat} {body : List Effect}
    {fin : Status} (h : Rounds env true i k body fin) :
    ∀ m c r, body[m]? = some (Effect.notifyAddrChange c r) →
      ∃ m0 o, m = m0 + 1 ∧ body[m0]? = some (Effect.blockingCall o) := by
  induction h with
  | stop i k => simp
  | blocked i k =>
    intro m c r hm
    cases m <;> simp at hm
  | closed i k =>
    intro m c r hm
    cases m <;> simp at hm
  | spurious i k r rest fin hr hrest ih =>
    intro m c r hm
    cases m with
    | zero => simp at hm
    | succ m =>
      simp only [List.getElem?_cons_succ] at hm
      obtain ⟨m0, o, h1, h2⟩ := ih m c r hm
      exact ⟨m0 + 1, o, by omega, by simpa using h2⟩
  | signalled i k rest fin hrest ih =>
    intro m c r hm
    simp only [signalledRound, if_true, List.cons_append, List.nil_append] at hm ⊢
    rcases m with _ | _ | _ | m
    · simp at hm
    · simp at hm
    · exact ⟨1, Origin.change i, rfl, by simp⟩
    · simp only [List.getElem?_cons_succ] at hm
      obtain ⟨m0, o, h1, h2⟩ := ih m c r hm
      exact ⟨m0 + 3, o, by omega, by simpa using h2⟩

theorem Rounds.close_last {env : Env} {f : Bool} {i k : Nat} {body : List Effect}
    {fin : Status} (h : Rounds env f i k body fin) :
    (fin = Status.exited → ∃ pre, body = pre ++ [Effect.wsaCloseEvent] ∧
      Effect.wsaCloseEvent ∉ pre) ∧
    (fin ≠ Status.exited → Effect.wsaCloseEvent ∉ body) := by
  induction h with
  | stop i k => simp
  | blocked i k => simp
  | closed i k => exact ⟨fun _ => ⟨[], by simp⟩, by simp⟩
  | spurious i k r rest fin hr hrest ih =>
    refine ⟨fun hf => ?_, fun hf => ?_⟩
    · obtain ⟨pre, h1, h2⟩ := ih.1 hf
      exact ⟨Effect.waitForSingleObject i (some r) :: pre, by simp [h1], by simp [h2]⟩
    · simpa using ih.2 hf
  | signalled i k rest fin hrest ih =>
    refine ⟨fun hf => ?_, fun hf => ?_⟩
    · obtain ⟨pre, h1, h2⟩ := ih.1 hf
      refine ⟨signalledRound env f i k ++ pre, by simp [h1], ?_⟩
      cases f <;> simp [signalledRound, h2]
    · have := ih.2 hf
      cases f <;> simp [signalledRound, this]

/-! ## What the loop does to the bridge -/

/-- The five cases of a pass through the loop. -/
theorem loopIteration_cases (env : Env) (st : LoopState) :
    st.status ≠ Status.running ∨
    (st.status = Status.running ∧ terminalError env st = true) ∨
    (st.status = Status.running ∧ terminalError env st = false ∧
      env.WaitForSingleObject st.iteration = none) ∨
    (st.status = Status.running ∧ terminalError env st = false ∧
      ∃ r, env.WaitForSingleObject st.iteration = some r ∧ r ≠ WAIT_OBJECT_0) ∨
    (st.status = Status.running ∧ terminalError env st = false ∧
      env.WaitForSingleObject st.iteration = some WAIT_OBJECT_0) := by
  by_cases h : st.status = Status.running
  · cases ht : terminalError env st with
    | true => exact Or.inr (Or.inl ⟨h, rfl⟩)
    | false =>
      cases hw : env.WaitForSingleObject st.iteration with
      | none => exact Or.inr (Or.inr (Or.inl ⟨h, rfl, rfl⟩))
      | some r =>
        by_cases hr : r = WAIT_OBJECT_0
        · subst hr
          exact Or.inr (Or.inr (Or.inr (Or.inr ⟨h, rfl, rfl⟩)))
        · exact Or.inr (Or.inr (Or.inr (Or.inl ⟨h, rfl, r, rfl, hr⟩)))
  · exact Or.inl h

theorem loopIteration_bridge (env : Env) (st : LoopState) (b : Bridge)
    (hb : st.proc.tsfn = some b) :
    ∃ later, (loopIteration env st).proc.tsfn = some { b with queue := b.queue ++ later } ∧
      (∀ q ∈ later, ∃ i, q = { args := [], origin := Origin.change i }) ∧
      (loopIteration env st).proc.orphaned = st.proc.orphaned ∧
      (loopIteration env st).proc.threads = st.proc.threads := by
  rcases loopIteration_cases env st with h | ⟨h, ht⟩ | ⟨h, ht, hw⟩ | ⟨h, ht, r, hw, hr⟩ |
    ⟨h, ht, hw⟩
  · rw [loopIteration_of_not_running env st h]
    exact ⟨[], by simp [hb], by simp, rfl, rfl⟩
  · rw [loopIteration_break env st h ht]
    exact ⟨[], by simp [hb], by simp, rfl, rfl⟩
  · rw [loopIteration_blocked env st h ht hw]
    exact ⟨[], by simp [hb], by simp, rfl, rfl⟩
  · rw [loopIteration_not_signalled env st r h ht hw hr]
    exact ⟨[], by simp [hb], by simp, rfl, rfl⟩
  · rw [loopIteration_signalled env st b h ht hw hb]
    exact ⟨[{ args := [], origin := Origin.change st.iteration }], rfl, by simp, rfl, rfl⟩

theorem whileLoop_bridge (env : Env) (n : Nat) (st : LoopState) (b : Bridge)
    (hb : st.proc.tsfn = some b) :
    ∃ later, (whileLoop env n st).proc.tsfn = some { b with queue := b.queue ++ later } ∧
      (∀ q ∈ later, ∃ i, q = { args := [], origin := Origin.change i }) ∧
      (whileLoop env n st).proc.orphaned = st.proc.orphaned ∧
      (whileLoop env n st).proc.threads = st.proc.threads := by
  induction n generalizing st b with
  | zero => exact ⟨[], by simp [whileLoop, hb], by simp, rfl, rfl⟩
  | succ n ih =>
    obtain ⟨l1, h1, h2, h3, h4⟩ := loopIteration_bridge env st b hb
    obtain ⟨l2, g1, g2, g3, g4⟩ := ih (loopIteration env st) _ h1
    refine ⟨l1 ++ l2, ?_, ?_, ?_, ?_⟩
    · rw [whileLoop, g1]
      simp
    · intro q hq
      rcases List.mem_append.mp hq with hq | hq
      · exact h2 q hq
      · exact g2 q hq
    · rw [whileLoop, g3, h3]
    · rw [whileLoop, g4, h4]

theorem loopEntry_tsfn (env : Env) (s : Process) : (loopEntry env s).proc.tsfn = s.tsfn := rfl

theorem StartMonitoring_Windows_rounds (env : Env) (n : Nat) (s : Process) :
    ∃ body, (StartMonitoring_Windows env n s).proc.trace =
        s.trace ++ (Effect.wsaCreateEvent ::
          Effect.notifyAddrChange 0 (env.NotifyAddrChange 0) :: body) ∧
      Rounds env s.tsfn.isSome 0 1 body (StartMonitoring_Windows env n s).status := by
  obtain ⟨body, h1, h2⟩ := whileLoop_rounds env n (loopEntry env s) rfl
  refine ⟨body, ?_, h2⟩
  rw [StartMonitoring_Windows, h1]
  simp [loopEntry]

theorem addedEffects_append (s r : Process) (l : List Effect) (h : r.trace = s.trace ++ l) :
    addedEffects s r = l := by
  rw [addedEffects, h, List.drop_left]

/-! ## Runs in which every wait is signalled -/

theorem terminalError_eq_false (env : Env) (st : LoopState)
    (h : st.ret = NO_ERROR ∨ env.WSAGetLastError st.iteration = WSA_IO_PENDING) :
    terminalError env st = false := by
  unfold terminalError
  rcases h with h | h <;> simp [h]

theorem terminalError_eq_true (env : Env) (st : LoopState)
    (h1 : st.ret ≠ NO_ERROR) (h2 : env.WSAGetLastError st.iteration ≠ WSA_IO_PENDING) :
    terminalError env st = true := by
  unfold terminalError
  simp [h1, h2]

theorem changeCalls_succ (i k : Nat) :
    changeCalls i (k + 1) = { args := [], origin := Origin.change i } :: changeCalls (i + 1) k := by
  simp [changeCalls, List.range'_succ]

theorem whileLoop_signalled_run (env : Env) (k : Nat) (st : LoopState) (b : Bridge)
    (h : st.status = Status.running) (hb : st.proc.tsfn = some b)
    (hc : st.notifyCalls = st.iteration + 1)
    (hret : st.ret = env.NotifyAddrChange st.iteration)
    (hok : ∀ j, st.iteration ≤ j → j < st.iteration + k →
      (env.NotifyAddrChange j = NO_ERROR ∨ env.WSAGetLastError j = WSA_IO_PENDING) ∧
        env.WaitForSingleObject j = some WAIT_OBJECT_0) :
    (whileLoop env k st).status = Status.running ∧
    (whileLoop env k st).iteration = st.iteration + k ∧
    (whileLoop env k st).notifyCalls = st.iteration + k + 1 ∧
    (whileLoop env k st).ret = env.NotifyAddrChange (st.iteration + k) ∧
    (whileLoop env k st).proc.tsfn =
      some { b with queue := b.queue ++ changeCalls st.iteration k } := by
  induction k generalizing st b with
  | zero => simp [whileLoop, h, hc, hret, hb, changeCalls]
  | succ k ih =>
    have h0 := hok st.iteration (le_refl _) (by omega)
    have ht : terminalError env st = false :=
      terminalError_eq_false env st (by rw [hret]; exact h0.1)
    have hstep := loopIteration_signalled env st b h ht h0.2 hb
    have hi : (loopIteration env st).iteration = st.iteration + 1 := by rw [hstep]
    have := ih (loopIteration env st)
      { b with queue := b.queue ++ [{ args := [], origin := Origin.change st.iteration }] }
      (by rw [hstep]) (by rw [hstep]) (by rw [hstep]; simp [hc]) (by rw [hstep]; simp [hc])
      (by
        intro j h1 h2
        rw [hi] at h1 h2
        exact hok j (by omega) (by omega))
    rw [hi] at this
    obtain ⟨g1, g2, g3, g4, g5⟩ := this
    rw [whileLoop]
    refine ⟨g1, ?_, ?_, ?_, ?_⟩
    · rw [g2]; omega
    · rw [g3]; omega
    · rw [g4]; congr 1; omega
    · rw [g5, changeCalls_succ]
      simp

/-! ## Runs without a signalled wait, and the way out of the loop -/

theorem loopIteration_quiet (env : Env) (st : LoopState)
    (hq : env.WaitForSingleObject st.iteration ≠ some WAIT_OBJECT_0) :
    (loopIteration env st).proc.tsfn = st.proc.tsfn ∧
    (loopIteration env st).ret = st.ret ∧
    (loopIteration env st).notifyCalls = st.notifyCalls ∧
    st.iteration ≤ (loopIteration env st).iteration := by
  rcases loopIteration_cases env st with h | ⟨h, ht⟩ | ⟨h, ht, hw⟩ | ⟨h, ht, r, hw, hr⟩ |
    ⟨h, ht, hw⟩
  · rw [loopIteration_of_not_running env st h]
    simp
  · rw [loopIteration_break env st h ht]
    simp
  · rw [loopIteration_blocked env st h ht hw]
    simp
  · rw [loopIteration_not_signalled env st r h ht hw hr]
    simp
  · exact absurd hw hq

theorem whileLoop_quiet (env : Env) (n : Nat) (st : LoopState)
    (hq : ∀ j, st.iteration ≤ j → env.WaitForSingleObject j ≠ some WAIT_OBJECT_0) :
    (whileLoop env n st).proc.tsfn = st.proc.tsfn ∧
    (whileLoop env n st).ret = st.ret ∧
    (whileLoop env n st).notifyCalls = st.notifyCalls := by
  induction n generalizing st with
  | zero => simp [whileLoop]
  | succ n ih =>
    obtain ⟨h1, h2, h3, h4⟩ := loopIteration_quiet env st (hq _ (le_refl _))
    obtain ⟨g1, g2, g3⟩ := ih (loopIteration env st) (fun j hj => hq j (le_trans h4 hj))
    rw [whileLoop, g1, g2, g3]
    exact ⟨h1, h2, h3⟩

theorem loopIteration_exited (env : Env) (st : LoopState)
    (h : st.status = Status.exited → terminalError env st = true) :
    (loopIteration env st).status = Status.exited →
      terminalError env (loopIteration env st) = true := by
  rcases loopIteration_cases env st with h0 | ⟨h0, ht⟩ | ⟨h0, ht, hw⟩ | ⟨h0, ht, r, hw, hr⟩ |
    ⟨h0, ht, hw⟩
  · rw [loopIteration_of_not_running env st h0]
    exact h
  · rw [loopIteration_break env st h0 ht]
    intro _
    exact ht
  · rw [loopIteration_blocked env st h0 ht hw]
    simp
  · rw [loopIteration_not_signalled env st r h0 ht hw hr]
    simp [h0]
  · unfold loopIteration
    simp [h0, ht, hw]

theorem whileLoop_exited (env : Env) (n : Nat) (st : LoopState)
    (h : st.status = Status.exited → terminalError env st = true) :
    (whileLoop env n st).status = Status.exited →
      terminalError env (whileLoop env n st) = true := by
  induction n generalizing st with
  | zero => exact h
  | succ n ih => exact ih (loopIteration env st) (loopIteration_exited env st h)

/-! ## `Start`: argument check and start-up sequence -/

/-- C1: a call of `Start` with an empty argument list, or with a first argument
that is not a function, throws the TypeError "Function expected as argument",
returns null and leaves the process as it was (same `tsfn`, same queues, same
thread count, no effect performed); and `Start` has this outcome only for such
argument lists. -/
theorem Start_invalid_argument (s : Process) (info : List JsValue) :
    ((info = [] ∨ ∃ v rest, info = v :: rest ∧ v.IsFunction = false) →
      (Start s info).2 = invalidArgument ∧ (Start s info).1 = s ∧
        (Start s info).1.tsfn = s.tsfn ∧ (Start s info).1.totalQueued = s.totalQueued ∧
        (Start s info).1.threads = s.threads ∧ (Start s info).1.trace = s.trace) ∧
    ((Start s info).2 = invalidArgument →
      info = [] ∨ ∃ v rest, info = v :: rest ∧ v.IsFunction = false) := by
  constructor
  · intro h
    have hv : validCall info = false := by
      rcases h with h | ⟨v, rest, h, hf⟩
      · rw [h, validCall_nil]
      · rw [h, validCall_cons, hf]
    rw [Start_of_invalid s info hv]
    simp
  · intro h
    cases info with
    | nil => exact Or.inl rfl
    | cons v rest =>
      refine Or.inr ⟨v, rest, rfl, ?_⟩
      cases hf : v.IsFunction with
      | false => rfl
      | true =>
        rw [Start_of_valid s (v :: rest) (by rw [validCall_cons, hf])] at h
        simp [invalidArgument] at h

/-- Witness of C1: `Start(3)` on the fresh process. -/
theorem Start_invalid_argument_witness :
    (Start Process.initial [JsValue.number 3]).2 = invalidArgument ∧
      (Start Process.initial [JsValue.number 3]).1 = Process.initial :=
  have h := (Start_invalid_argument Process.initial [JsValue.number 3]).1
    (Or.inr ⟨JsValue.number 3, [], rfl, rfl⟩)
  ⟨h.1, h.2.1⟩

/-- C3: after a successful `Start` with callback `f`, if the first `N` waits of
the monitor loop are signalled (each after a registration that reported success
or pending) and no later wait is signalled, then, once the loop has made `N`
passes, the bridge delivers exactly `N + 1` calls of `f`, all without
arguments: the start-up call first, then one per signal in the order of the
signals. -/
theorem callback_once_per_signal (s : Process) (f : JsValue) (rest : List JsValue)
    (hf : f.IsFunction = true) (env : Env) (N : Nat)
    (hsig : ∀ j, j < N →
      (env.NotifyAddrChange j = NO_ERROR ∨ env.WSAGetLastError j = WSA_IO_PENDING) ∧
        env.WaitForSingleObject j = some WAIT_OBJECT_0)
    (hquiet : ∀ j, N ≤ j → env.WaitForSingleObject j ≠ some WAIT_OBJECT_0)
    (fuel : Nat) (hfuel : N ≤ fuel) :
    ∃ b, (monitorThread Platform.win32 env fuel (Start s (f :: rest)).1).proc.tsfn = some b ∧
      b.deliveries =
        Invocation.mk f [] Origin.startup ::
          (List.range N).map (fun j => Invocation.mk f [] (Origin.change j)) ∧
      b.deliveries.length = N + 1 := by
  have hs := Start_function s f rest hf
  obtain ⟨m, rfl⟩ := Nat.exists_eq_add_of_le hfuel
  have hrun := whileLoop_signalled_run env N (loopEntry env (Start s (f :: rest)).1)
    { callback := f, queue := [{ args := [], origin := Origin.startup }] } rfl
    (by rw [loopEntry_tsfn, hs]) rfl rfl
    (by
      intro j _ h2
      exact hsig j (by simpa [loopEntry] using h2))
  obtain ⟨_, h2, _, _, h5⟩ := hrun
  have hq := whileLoop_quiet env m (whileLoop env N (loopEntry env (Start s (f :: rest)).1))
    (by
      intro j hj
      rw [h2] at hj
      exact hquiet j (by simpa [loopEntry] using hj))
  refine ⟨{ callback := f
            queue := { args := [], origin := Origin.startup } :: changeCalls 0 N }, ?_, ?_, ?_⟩
  · simp only [monitorThread, StartMonitoring_Windows]
    rw [whileLoop_add, hq.1, h5]
    simp [loopEntry]
  · simp [Bridge.deliveries, changeCalls, List.range_eq_range']
  · simp [Bridge.deliveries, changeCalls]

/-- Witness of C3: two signals give three deliveries. -/
theorem callback_once_per_signal_witness :
    (JsValue.function 0).IsFunction = true ∧
    ∃ b, (monitorThread Platform.win32 envTwoSignals 3
        (Start Process.initial [JsValue.function 0]).1).proc.tsfn = some b ∧
      b.deliveries =
        [Invocation.mk (JsValue.function 0) [] Origin.startup,
          Invocation.mk (JsValue.function 0) [] (Origin.change 0),
          Invocation.mk (JsValue.function 0) [] (Origin.change 1)] :=
  ⟨rfl,
    (callback_once_per_signal Process.initial (JsValue.function 0) [] rfl envTwoSignals 2
      (fun j hj => by simp [envTwoSignals, WSA_IO_PENDING, WAIT_OBJECT_0, hj])
      (fun j hj => by simp [envTwoSignals, Nat.not_lt.mpr hj])
      3 (by decide)).imp fun _ h => ⟨h.1, h.2.1⟩⟩

/-- C4: if the first `K` registrations report success or pending and their
waits are signalled, and registration `K` (counting from 0) reports a terminal
error, then, once the loop has made `K + 1` passes, the thread has exited and
the loop has queued exactly the `K` calls of the signals before the error,
whatever the later waits would return and however long one goes on looking;
for `K = 0` it has queued none. -/
theorem terminal_error_after_K_events (env : Env) (K : Nat) (s : Process) (b : Bridge)
    (hb : s.tsfn = some b)
    (hsig : ∀ j, j < K →
      (env.NotifyAddrChange j = NO_ERROR ∨ env.WSAGetLastError j = WSA_IO_PENDING) ∧
        env.WaitForSingleObject j = some WAIT_OBJECT_0)
    (herr : env.NotifyAddrChange K ≠ NO_ERROR ∧ env.WSAGetLastError K ≠ WSA_IO_PENDING)
    (fuel : Nat) (hfuel : K < fuel) :
    (StartMonitoring_Windows env fuel s).status = Status.exited ∧
    (StartMonitoring_Windows env fuel s).proc.tsfn =
      some { b with queue := b.queue ++ changeCalls 0 K } ∧
    (changeCalls 0 K).length = K := by
  obtain ⟨m, rfl⟩ := Nat.exists_eq_add_of_lt hfuel
  have hrun := whileLoop_signalled_run env K (loopEntry env s) b rfl hb rfl rfl
    (by
      intro j _ h2
      exact hsig j (by simpa [loopEntry] using h2))
  obtain ⟨h1, h2, _, h4, h5⟩ := hrun
  have hi : (whileLoop env K (loopEntry env s)).iteration = K := by
    rw [h2]; simp [loopEntry]
  have hret : (whileLoop env K (loopEntry env s)).ret = env.NotifyAddrChange K := by
    rw [h4]; simp [loopEntry]
  have ht : terminalError env (whileLoop env K (loopEntry env s)) = true :=
    terminalError_eq_true env _ (by rw [hret]; exact herr.1) (by rw [hi]; exact herr.2)
  have hstep := loopIteration_break env _ h1 ht
  have hrew : StartMonitoring_Windows env (K + m + 1) s =
      loopIteration env (whileLoop env K (loopEntry env s)) := by
    rw [StartMonitoring_Windows, show K + m + 1 = K + (1 + m) by omega, whileLoop_add,
      whileLoop_add, whileLoop, whileLoop]
    exact whileLoop_of_not_running env m _ (by rw [hstep]; simp)
  rw [hrew, hstep]
  refine ⟨rfl, ?_, by simp [changeCalls]⟩
  simp only [emit_tsfn]
  rw [h5]
  simp [loopEntry]

/-- Witness of C4: a terminal error at registration 2 leaves two calls queued
by the loop. -/
theorem terminal_error_after_K_events_witness :
    (StartMonitoring_Windows envFailsAtTwo 10
        (Start Process.initial [JsValue.function 0]).1).status = Status.exited ∧
    (StartMonitoring_Windows envFailsAtTwo 10
        (Start Process.initial [JsValue.function 0]).1).proc.tsfn =
      some { callback := JsValue.function 0
             queue := [{ args := [], origin := Origin.startup },
               { args := [], origin := Origin.change 0 },
               { args := [], origin := Origin.change 1 }] } :=
  have h := terminal_error_after_K_events envFailsAtTwo 2
    (Start Process.initial [JsValue.function 0]).1
    { callback := JsValue.function 0, queue := [{ args := [], origin := Origin.startup }] }
    rfl
    (fun j hj => by simp [envFailsAtTwo, WSA_IO_PENDING, WAIT_OBJECT_0, hj])
    (by simp [envFailsAtTwo, WSA_IO_PENDING, NO_ERROR])
    10 (by decide)
  ⟨h.1, h.2.1⟩

/-- C6: when the loop is at its head and the test of line 31 finds a terminal
error, the next thing the thread does is close the event and exit. A thread
that has exited has closed the event exactly once, as the last of its effects,
and got there through that test; further passes change nothing (no
registration, wait or queued call follows). A thread that has not exited has
not closed the event. -/
theorem exit_closes_event_once (env : Env) (fuel : Nat) (s : Process) :
    ((StartMonitoring_Windows env fuel s).status = Status.running →
      terminalError env (StartMonitoring_Windows env fuel s) = true →
      StartMonitoring_Windows env (fuel + 1) s =
        { StartMonitoring_Windows env fuel s with
          proc := (StartMonitoring_Windows env fuel s).proc.emit Effect.wsaCloseEvent
          status := Status.exited }) ∧
    ((StartMonitoring_Windows env fuel s).status = Status.exited →
      (∃ pre, addedEffects s (StartMonitoring_Windows env fuel s).proc =
          pre ++ [Effect.wsaCloseEvent] ∧ Effect.wsaCloseEvent ∉ pre) ∧
      terminalError env (StartMonitoring_Windows env fuel s) = true ∧
      ∀ more, StartMonitoring_Windows env (fuel + more) s =
        StartMonitoring_Windows env fuel s) ∧
    ((StartMonitoring_Windows env fuel s).status ≠ Status.exited →
      Effect.wsaCloseEvent ∉ addedEffects s (StartMonitoring_Windows env fuel s).proc) := by
  obtain ⟨body, htrace, hrounds⟩ := StartMonitoring_Windows_rounds env fuel s
  have hadded := addedEffects_append s _ _ htrace
  refine ⟨?_, ?_, ?_⟩
  · intro hrun ht
    unfold StartMonitoring_Windows at hrun ht ⊢
    rw [whileLoop_add, whileLoop, whileLoop, loopIteration_break env _ hrun ht]
  · intro hex
    refine ⟨?_, ?_, ?_⟩
    · obtain ⟨pre, h1, h2⟩ := hrounds.close_last.1 hex
      refine ⟨Effect.wsaCreateEvent ::
        Effect.notifyAddrChange 0 (env.NotifyAddrChange 0) :: pre, ?_, ?_⟩
      · rw [hadded, h1]
        simp
      · simp [h2]
    · exact whileLoop_exited env fuel (loopEntry env s) (by simp [loopEntry]) hex
    · intro more
      unfold StartMonitoring_Windows at hex ⊢
      rw [whileLoop_add]
      exact whileLoop_of_not_running env more _ (by rw [hex]; simp)
  · intro hne
    rw [hadded]
    simpa using hrounds.close_last.2 hne

/-- Witness of C6: the run that ends in the terminal error of the third
registration. -/
theorem exit_closes_event_once_witness :
    addedEffects (Start Process.initial [JsValue.function 0]).1
        (StartMonitoring_Windows envFailsAtTwo 3
          (Start Process.initial [JsValue.function 0]).1).proc =
      [Effect.wsaCreateEvent, Effect.notifyAddrChange 0 997,
        Effect.waitForSingleObject 0 (some 0), Effect.blockingCall (Origin.change 0),
        Effect.notifyAddrChange 1 997,
        Effect.waitForSingleObject 1 (some 0), Effect.blockingCall (Origin.change 1),
        Effect.notifyAddrChange 2 5, Effect.wsaCloseEvent] ∧
    StartMonitoring_Windows envFailsAtTwo (3 + 4)
        (Start Process.initial [JsValue.function 0]).1 =
      StartMonitoring_Windows envFailsAtTwo 3 (Start Process.initial [JsValue.function 0]).1 :=
  ⟨by decide,
    ((exit_closes_event_once envFailsAtTwo 3
      (Start Process.initial [JsValue.function 0]).1).2.1 (by decide)).2.2 4⟩

/-- C7: on a platform whose `StartMonitoring` function is an empty stub (macOS,
Linux) the monitor thread returns without performing any effect, whatever the
operating system would answer: after a successful `Start` the process is the
one `Start` left, its bridge holds the start-up call and nothing else, and the
number of queued calls has grown by exactly one (to one on a fresh
process). -/
theorem stub_platform_delivers_only_startup (p : Platform)
    (hp : p = Platform.apple ∨ p = Platform.linux) (env : Env) (fuel : Nat)
    (s : Process) (f : JsValue) (rest : List JsValue) (hf : f.IsFunction = true) :
    (monitorThread p env fuel (Start s (f :: rest)).1).proc = (Start s (f :: rest)).1 ∧
    addedEffects (Start s (f :: rest)).1
      (monitorThread p env fuel (Start s (f :: rest)).1).proc = [] ∧
    (monitorThread p env fuel (Start s (f :: rest)).1).proc.tsfn =
      some { callback := f, queue := [{ args := [], origin := Origin.startup }] } ∧
    (monitorThread p env fuel (Start s (f :: rest)).1).proc.totalQueued = s.totalQueued + 1 ∧
    (monitorThread p env fuel (Start Process.initial (f :: rest)).1).proc.totalQueued = 1 := by
  have hstub : ∀ t : Process, (monitorThread p env fuel t).proc = t := by
    intro t
    rcases hp with hp | hp <;> subst hp <;> rfl
  have hs := Start_function s f rest hf
  have hi := Start_function Process.initial f rest hf
  refine ⟨hstub _, ?_, ?_, ?_, ?_⟩
  · rw [hstub]
    simp [addedEffects]
  · rw [hstub, hs]
  · rw [hstub, hs]
    simp [Process.totalQueued]
    omega
  · rw [hstub, hi]
    simp [Process.totalQueued, Process.initial]

/-- Witness of C7: macOS, with an operating system that keeps signalling. -/
theorem stub_platform_delivers_only_startup_witness :
    (JsValue.function 0).IsFunction = true ∧
    (monitorThread Platform.apple envFailsAtTwo 10
      (Start Process.initial [JsValue.function 0]).1).proc.totalQueued = 1 :=
  ⟨rfl, (stub_platform_delivers_only_startup Platform.apple (Or.inl rfl) envFailsAtTwo 10
    Process.initial (JsValue.function 0) [] rfl).2.2.2.2⟩

/-! ## Repeated calls of `Start` -/

theorem Start_valid_fields (s : Process) (info : List JsValue) (h : validCall info = true) :
    (Start s info).1.threads = s.threads + 1 ∧
    (Start s info).1.tsfn = some (freshBridge info) ∧
    (Start s info).1.orphaned = s.orphaned ++ s.tsfn.toList := by
  rw [Start_of_valid s info h]
  simp [spawnMonitorThread, BlockingCall, ThreadSafeFunction_New, freshBridge]

/-- Counterexample to C5 as stated: two calls of `Start` with a function spawn
two monitor threads and leave two bridges in the process. -/
theorem two_starts_spawn_two_threads :
    (startAll Process.initial [[JsValue.function 0], [JsValue.function 1]]).threads = 2 ∧
    ¬ (startAll Process.initial [[JsValue.function 0], [JsValue.function 1]]).threads ≤ 1 ∧
    (startAll Process.initial [[JsValue.function 0], [JsValue.function 1]]).orphaned =
      [freshBridge [JsValue.function 0]] ∧
    (startAll Process.initial [[JsValue.function 0], [JsValue.function 1]]).tsfn =
      some (freshBridge [JsValue.function 1]) := by
  decide

/-- C5, amended: after any sequence of `Start` calls the number of monitor
threads spawned has grown by the number of calls made with a valid callback,
and so has the number of bridges in the process; the global `tsfn` holds a
single registration, the one of the latest valid call (it is unchanged when no
call is valid). -/
theorem threads_count_valid_starts (s : Process) (calls : List (List JsValue)) :
    (startAll s calls).threads = s.threads + (calls.filter validCall).length ∧
    (startAll s calls).orphaned.length + (startAll s calls).tsfn.toList.length =
      s.orphaned.length + s.tsfn.toList.length + (calls.filter validCall).length ∧
    (startAll s calls).tsfn =
      match (calls.filter validCall).getLast? with
      | some info => some (freshBridge info)
      | none => s.tsfn := by
  induction calls generalizing s with
  | nil => simp [startAll]
  | cons info calls ih =>
    cases hv : validCall info with
    | false =>
      rw [startAll, Start_of_invalid s info hv]
      simpa [hv] using ih s
    | true =>
      obtain ⟨h1, h2, h3⟩ := Start_valid_fields s info hv
      obtain ⟨g1, g2, g3⟩ := ih (Start s info).1
      rw [startAll]
      refine ⟨?_, ?_, ?_⟩
      · rw [g1, h1]
        simp [hv]
        omega
      · rw [g2, h2, h3]
        simp [hv]
        omega
      · rw [g3, h2]
        simp only [List.filter_cons, hv, if_true]
        cases hl : calls.filter validCall with
        | nil => simp
        | cons c cs =>
          simp only [List.getLast?_cons_cons]
          cases hg : (c :: cs).getLast? with
          | none => simp at hg
          | some x => rfl

/-! ## Re-arming -/

/-- C9: in every run of the monitor loop started with a registered callback,
a signalled wait is followed at once by exactly one queued call, then by
exactly one call of `NotifyAddrChange`, and the next effect (if any) is a wait
or the closing of the event; between two consecutive queued calls there is
exactly one registration; and two signals one after the other give two
separate queued calls. -/
theorem rearm_after_each_signal (env : Env) (fuel : Nat) (s : Process) (b : Bridge)
    (hb : s.tsfn = some b) :
    (∀ m j, (addedEffects s (StartMonitoring_Windows env fuel s).proc)[m]? =
        some (Effect.waitForSingleObject j (some WAIT_OBJECT_0)) →
      (addedEffects s (StartMonitoring_Windows env fuel s).proc)[m + 1]? =
        some (Effect.blockingCall (Origin.change j)) ∧
      (∃ c, (addedEffects s (StartMonitoring_Windows env fuel s).proc)[m + 2]? =
        some (Effect.notifyAddrChange c (env.NotifyAddrChange c))) ∧
      ∀ e, (addedEffects s (StartMonitoring_Windows env fuel s).proc)[m + 3]? = some e →
        e.isWaitOrClose = true) ∧
    (∀ a c oa oc, a < c →
      (addedEffects s (StartMonitoring_Windows env fuel s).proc)[a]? =
        some (Effect.blockingCall oa) →
      (addedEffects s (StartMonitoring_Windows env fuel s).proc)[c]? =
        some (Effect.blockingCall oc) →
      (∀ x o, a < x → x < c →
        (addedEffects s (StartMonitoring_Windows env fuel s).proc)[x]? ≠
          some (Effect.blockingCall o)) →
      ∃! x : Nat, a < x ∧ x < c ∧ ∃ k r,
        (addedEffects s (StartMonitoring_Windows env fuel s).proc)[x]? =
          some (Effect.notifyAddrChange k r)) ∧
    ((∀ j, j < 2 →
        (env.NotifyAddrChange j = NO_ERROR ∨ env.WSAGetLastError j = WSA_IO_PENDING) ∧
          env.WaitForSingleObject j = some WAIT_OBJECT_0) →
      2 ≤ fuel →
      ∃ later, (StartMonitoring_Windows env fuel s).proc.tsfn =
        some { b with
          queue := b.queue ++
            ({ args := [], origin := Origin.change 0 } ::
              { args := [], origin := Origin.change 1 } :: later) }) := by
  obtain ⟨body, htrace, hrounds⟩ := StartMonitoring_Windows_rounds env fuel s
  have hadded := addedEffects_append s _ _ htrace
  rw [hb] at hrounds
  simp only [Option.isSome_some] at hrounds
  rw [hadded]
  have hshift : ∀ m, (Effect.wsaCreateEvent ::
      Effect.notifyAddrChange 0 (env.NotifyAddrChange 0) :: body)[m + 2]? = body[m]? := by
    intro m
    simp
  refine ⟨?_, ?_, ?_⟩
  · intro m j hm
    rcases m with _ | _ | m
    · simp at hm
    · simp at hm
    · rw [hshift] at hm
      obtain ⟨h1, h2, h3⟩ := hrounds.after_signalled m j hm
      refine ⟨?_, ?_, ?_⟩
      · rw [show m + 1 + 1 + 1 = (m + 1) + 2 by omega, hshift]
        exact h1
      · rw [show m + 1 + 1 + 2 = (m + 2) + 2 by omega, hshift]
        exact h2
      · rw [show m + 1 + 1 + 3 = (m + 3) + 2 by omega, hshift]
        exact h3
  · intro a c oa oc hac ha hc hbetween
    rcases a with _ | _ | a
    · simp at ha
    · simp at ha
    · rw [hshift] at ha
      obtain ⟨m0, j, hm0, _, hwait⟩ := hrounds.before_enqueue a oa ha
      obtain ⟨_, ⟨k, hk⟩, _⟩ := hrounds.after_signalled m0 j hwait
      have hnext : (Effect.wsaCreateEvent ::
          Effect.notifyAddrChange 0 (env.NotifyAddrChange 0) :: body)[a + 1 + 1 + 1]? =
          some (Effect.notifyAddrChange k (env.NotifyAddrChange k)) := by
        rw [show a + 1 + 1 + 1 = (m0 + 2) + 2 by omega, hshift]
        exact hk
      refine ⟨a + 1 + 1 + 1, ⟨by omega, ?_, k, _, hnext⟩, ?_⟩
      · rcases Nat.lt_or_ge (a + 1 + 1 + 1) c with h | h
        · exact h
        · have : c = a + 1 + 1 + 1 := by omega
          rw [this, hnext] at hc
          simp at hc
      · rintro y ⟨hay, hyc, k2, r2, hy⟩
        obtain ⟨y0, rfl⟩ : ∃ y0, y = y0 + 2 := ⟨y - 2, by omega⟩
        rw [hshift] at hy
        obtain ⟨m1, o, hm1, henq⟩ := hrounds.before_notify y0 k2 r2 hy
        by_contra hne
        refine hbetween (m1 + 2) o (by omega) (by omega) ?_
        rw [hshift]
        exact henq
  · intro hsig hfuel
    obtain ⟨m, rfl⟩ := Nat.exists_eq_add_of_le hfuel
    have hrun := whileLoop_signalled_run env 2 (loopEntry env s) b rfl hb rfl rfl
      (by
        intro j _ h2
        exact hsig j (by simpa [loopEntry] using h2))
    obtain ⟨later, h1, _⟩ := whileLoop_bridge env m (whileLoop env 2 (loopEntry env s)) _
      hrun.2.2.2.2
    refine ⟨later, ?_⟩
    rw [StartMonitoring_Windows, whileLoop_add, h1]
    simp [changeCalls, loopEntry, List.range'_succ]

/-- Witness of C9: the run with two signals one after the other. -/
theorem rearm_after_each_signal_witness :
    ∃ later, (StartMonitoring_Windows envTwoSignals 5
        (Start Process.initial [JsValue.function 0]).1).proc.tsfn =
      some { callback := JsValue.function 0
             queue := [{ args := [], origin := Origin.startup }] ++
              ({ args := [], origin := Origin.change 0 } ::
                { args := [], origin := Origin.change 1 } :: later) } :=
  (rearm_after_each_signal envTwoSignals 5 (Start Process.initial [JsValue.function 0]).1
    { callback := JsValue.function 0, queue := [{ args := [], origin := Origin.startup }] }
    rfl).2.2
    (fun j hj => by simp [envTwoSignals, WSA_IO_PENDING, WAIT_OBJECT_0, hj])
    (by decide)

/-! ## Waits that return without a signal -/

end NetworkMonitor
